import Mathlib

/-!
Shallow embedding of the decimal-safe arithmetic engine of `fs-utils-lib`
(source: `src/unnamed/part_003`, lines 560-865): `getDecimalPlaces`,
`preciseAdd`, `preciseSubtract`, `preciseMultiply`, `preciseDivide`,
`preciseCalculate`, `formatNumber`, and the fluent `Calculator` class.

Modelling conventions.  Per the specification's data model, a JS number is
interpreted only through its canonical (shortest round-tripping) base-10
textual rendering, so we embed numbers as exact rationals `ℚ`.  For a
rational whose decimal expansion terminates, the number of digits after the
point in that canonical rendering is the least `n` with `q * 10^n ∈ ℤ`; for
operands whose rendering would use exponential notation the engine's
behaviour is declared unspecified, which our `isFiniteDecimal` hypotheses
reflect.  JS `Math.round x` is `⌊x + 1/2⌋` (round half toward +∞),
`Math.ceil`/`Math.floor` are `⌈⌉`/`⌊⌋`, and thrown `Error`s become
`Except.error` values of the spec's error taxonomy.
-/

namespace FsUtils

/-- Error taxonomy of the spec (§7): DivisionByZero, UnsupportedOperator,
NegativeOperand. -/
inductive CalcError where
  | divisionByZero
  | unsupportedOperator
  | negativeOperand
  deriving DecidableEq, Repr

/-- JS `Math.round`: rounds half toward positive infinity. -/
def jsRound (q : ℚ) : ℤ := ⌊q + 1 / 2⌋

/-- Bounded linear search for the least `n ≥ start` with `(q * 10^n).den = 1`,
returning the last probed index when the fuel runs out. -/
def dpSearch (q : ℚ) : ℕ → ℕ → ℕ
  | 0, start => start
  | fuel + 1, start =>
      if (q * 10 ^ start).den = 1 then start else dpSearch q fuel (start + 1)

/-- `q` is in the image of the engine's data model: its decimal expansion
terminates (`q.den` divides a power of ten; the exponent `q.den` is always
large enough, since `2^a * 5^b ≤ den` forces `max a b ≤ den`). -/
def isFiniteDecimal (q : ℚ) : Prop := (q * 10 ^ q.den).den = 1

instance (q : ℚ) : Decidable (isFiniteDecimal q) := by
  unfold isFiniteDecimal; infer_instance

/-- `getDecimalPlaces` (source lines 574-578): the source counts the digits
after `'.'` in `num.toString()`.  For a terminating decimal the canonical
string has exactly (least `n` with `q * 10^n ∈ ℤ`) fractional digits, which
the bounded search computes. -/
def getDecimalPlaces (q : ℚ) : ℕ := dpSearch q (q.den + 1) 0

/-- `preciseAdd` (source lines 587-594): scale both operands by
`10^max(da, db)`, round the sum, divide back. -/
def preciseAdd (a b : ℚ) : ℚ :=
  let maxDecimalPlaces := max (getDecimalPlaces a) (getDecimalPlaces b)
  let multiplier : ℚ := 10 ^ maxDecimalPlaces
  (jsRound (a * multiplier + b * multiplier) : ℚ) / multiplier

/-- `preciseSubtract` (source lines 603-610). -/
def preciseSubtract (a b : ℚ) : ℚ :=
  let maxDecimalPlaces := max (getDecimalPlaces a) (getDecimalPlaces b)
  let multiplier : ℚ := 10 ^ maxDecimalPlaces
  (jsRound (a * multiplier - b * multiplier) : ℚ) / multiplier

/-- `preciseMultiply` (source lines 619-625): the multiplier is
`10^(da + db)` and only `a` is pre-scaled before multiplying by `b`. -/
def preciseMultiply (a b : ℚ) : ℚ :=
  let multiplier : ℚ := 10 ^ (getDecimalPlaces a + getDecimalPlaces b)
  (jsRound (a * multiplier * b) : ℚ) / multiplier

/-- `preciseDivide` (source lines 635-642): throws on a zero divisor before
any computation, otherwise rounds the floating quotient to `precision`
decimal places. -/
def preciseDivide (a b : ℚ) (precision : ℕ) : Except CalcError ℚ :=
  if b = 0 then .error .divisionByZero
  else
    let multiplier : ℚ := 10 ^ precision
    .ok ((jsRound (a / b * multiplier) : ℚ) / multiplier)

/-- `preciseCalculate` (source lines 653-666): operator dispatch with a
throwing default branch. -/
def preciseCalculate (a : ℚ) (operator : String) (b : ℚ) (precision : ℕ) :
    Except CalcError ℚ :=
  match operator with
  | "+" => .ok (preciseAdd a b)
  | "-" => .ok (preciseSubtract a b)
  | "*" => .ok (preciseMultiply a b)
  | "/" => preciseDivide a b precision
  | _ => .error .unsupportedOperator

/-- Fixed-decimal rendering of a nonnegative rational, following ECMAScript
`Number.prototype.toFixed`: pick the integer `n` whose value `n / 10^d` is
closest to the input (ties toward the larger `n`, i.e. `jsRound`), render its
digits, and place the decimal point `d` digits from the right (padding with
leading zeros so an integer part survives). -/
def toFixedNonneg (q : ℚ) (d : ℕ) : String :=
  let n := (jsRound (q * 10 ^ d)).toNat
  let s := Nat.repr n
  if d = 0 then s
  else
    let digits := List.replicate (d + 1 - s.length) '0' ++ s.data
    let k := digits.length - d
    String.mk (digits.take k) ++ "." ++ String.mk (digits.drop k)

/-- ECMAScript `toFixed` on all finite inputs: a negative input is rendered
as the sign followed by the rendering of its negation. -/
def toFixedStr (q : ℚ) (d : ℕ) : String :=
  if q < 0 then "-" ++ toFixedNonneg (-q) d else toFixedNonneg q d

/-- The regex replacement `formatted.replace(/\.?0+$/, '')` of the source:
the leftmost match of an optional dot followed by one or more zeros anchored
at the end of the string is exactly the maximal run of trailing zero digits,
preceded by the dot when the dot immediately precedes that run.  If the
string does not end in a zero digit there is no match. -/
def stripTrailingZeros (s : String) : String :=
  let rev := s.data.reverse
  if rev.head? = some '0' then
    match rev.dropWhile (fun c => c = '0') with
    | '.' :: rest => String.mk rest.reverse
    | r => String.mk r.reverse
  else s

/-- `formatNumber` (source lines 676-684): `num.toFixed(decimals)`, with the
trailing-zero strip applied when requested. -/
def formatNumber (num : ℚ) (decimals : ℕ) (removeTrailingZeros : Bool) : String :=
  let formatted := toFixedStr num decimals
  if removeTrailingZeros then stripTrailingZeros formatted else formatted

/-- JS `Math.sqrt` on the model's rationals: exact on perfect-square
rationals (the only inputs whose square root is again a decimal value; on
other inputs `Math.sqrt` returns a binary approximation outside the data
model, which this stands in for). -/
def ratSqrt (q : ℚ) : ℚ := (Nat.sqrt q.num.toNat : ℚ) / (Nat.sqrt q.den : ℚ)

/-- The `Calculator` class (source lines 690-856): a single mutable numeric
accumulator `value`.  In-place mutation followed by `return this` is
embedded as state passing: each method maps the receiver to the updated
instance (or to a thrown error). -/
structure Calculator where
  value : ℚ
  deriving DecidableEq, Repr

namespace Calculator

/-- `add` (source lines 708-711). -/
def add (c : Calculator) (num : ℚ) : Calculator := ⟨preciseAdd c.value num⟩

/-- `subtract` (source lines 719-722). -/
def subtract (c : Calculator) (num : ℚ) : Calculator := ⟨preciseSubtract c.value num⟩

/-- `multiply` (source lines 730-733). -/
def multiply (c : Calculator) (num : ℚ) : Calculator := ⟨preciseMultiply c.value num⟩

/-- `divide` (source lines 742-745): the assignment only happens when
`preciseDivide` returns; a thrown DivisionByZero propagates before any
mutation. -/
def divide (c : Calculator) (num : ℚ) (precision : ℕ) : Except CalcError Calculator :=
  match preciseDivide c.value num precision with
  | .error e => .error e
  | .ok v => .ok ⟨v⟩

/-- `power` (source lines 753-756): `Math.pow(this.value, exponent)`,
modelled for integer exponents (the only exponents under which the engine's
decimal data model is closed). -/
def power (c : Calculator) (exponent : ℤ) : Calculator := ⟨c.value ^ exponent⟩

/-- `sqrt` (source lines 763-769): validates the sign of the accumulator and
throws NegativeOperand before any mutation. -/
def sqrt (c : Calculator) : Except CalcError Calculator :=
  if c.value < 0 then .error .negativeOperand else .ok ⟨ratSqrt c.value⟩

/-- `abs` (source lines 776-779). -/
def abs (c : Calculator) : Calculator := ⟨|c.value|⟩

/-- `round` (source lines 787-791): `Math.round(value * 10^d) / 10^d`. -/
def round (c : Calculator) (decimals : ℕ) : Calculator :=
  let multiplier : ℚ := 10 ^ decimals
  ⟨(jsRound (c.value * multiplier) : ℚ) / multiplier⟩

/-- `ceil` (source lines 799-803): `Math.ceil(value * 10^d) / 10^d`. -/
def ceil (c : Calculator) (decimals : ℕ) : Calculator :=
  let multiplier : ℚ := 10 ^ decimals
  ⟨(⌈c.value * multiplier⌉ : ℚ) / multiplier⟩

/-- `floor` (source lines 811-815): `Math.floor(value * 10^d) / 10^d`. -/
def floor (c : Calculator) (decimals : ℕ) : Calculator :=
  let multiplier : ℚ := 10 ^ decimals
  ⟨(⌊c.value * multiplier⌋ : ℚ) / multiplier⟩

/-- `result` (source lines 822-824). -/
def result (c : Calculator) : ℚ := c.value

/-- `format` (source lines 833-835). -/
def format (c : Calculator) (decimals : ℕ) (removeTrailingZeros : Bool) : String :=
  formatNumber c.value decimals removeTrailingZeros

end Calculator

/-- One chained mutating call on a `Calculator`, with its argument(s). -/
inductive Op where
  | add (num : ℚ)
  | subtract (num : ℚ)
  | multiply (num : ℚ)
  | divide (num : ℚ) (precision : ℕ)
  | power (exponent : ℤ)
  | sqrt
  | abs
  | round (decimals : ℕ)
  | ceil (decimals : ℕ)
  | floor (decimals : ℕ)
  deriving DecidableEq, Repr

/-- Dispatch one chained call to the corresponding method of the class. -/
def Calculator.step (c : Calculator) : Op → Except CalcError Calculator
  | .add n => .ok (c.add n)
  | .subtract n => .ok (c.subtract n)
  | .multiply n => .ok (c.multiply n)
  | .divide n p => c.divide n p
  | .power e => .ok (c.power e)
  | .sqrt => c.sqrt
  | .abs => .ok c.abs
  | .round d => .ok (c.round d)
  | .ceil d => .ok (c.ceil d)
  | .floor d => .ok (c.floor d)

/-- A fluent chain `c.op1(..).op2(..)...`: each call feeds the instance it
returned to the next call; a thrown error aborts the chain. -/
def Calculator.runChain (c : Calculator) : List Op → Except CalcError Calculator
  | [] => .ok c
  | op :: ops =>
      match c.step op with
      | .error e => .error e
      | .ok c2 => c2.runChain ops

/-- A caller that wraps one chained call in try/catch and keeps using the
same instance afterwards: on a thrown error the instance is as it was. -/
def Calculator.attempt (c : Calculator) (op : Op) : Calculator :=
  match c.step op with
  | .ok c2 => c2
  | .error _ => c

/-- Modelled from the spec: each mutating operation's documented numeric
transform on the bare accumulator (§4.6 with §4.2-§4.4): precise
add/subtract/multiply/divide, power, square root guarded by NegativeOperand,
absolute value, and round/ceil/floor to a decimal position. -/
def docTransform (v : ℚ) : Op → Except CalcError ℚ
  | .add n => .ok (preciseAdd v n)
  | .subtract n => .ok (preciseSubtract v n)
  | .multiply n => .ok (preciseMultiply v n)
  | .divide n p => preciseDivide v n p
  | .power e => .ok (v ^ e)
  | .sqrt => if v < 0 then .error .negativeOperand else .ok (ratSqrt v)
  | .abs => .ok |v|
  | .round d => .ok ((jsRound (v * 10 ^ d) : ℚ) / 10 ^ d)
  | .ceil d => .ok ((⌈v * 10 ^ d⌉ : ℚ) / 10 ^ d)
  | .floor d => .ok ((⌊v * 10 ^ d⌋ : ℚ) / 10 ^ d)

/-- Modelled from the spec: the documented meaning of a chain is the
left-to-right application of each operation's numeric transform in call
order to the accumulator. -/
def docRun (v : ℚ) : List Op → Except CalcError ℚ
  | [] => .ok v
  | op :: ops =>
      match docTransform v op with
      | .error e => .error e
      | .ok v2 => docRun v2 ops

/-! ### Helper lemmas -/

theorem dpSearch_den_one (q : ℚ) :
    ∀ fuel start, (q * 10 ^ (start + fuel)).den = 1 →
      (q * 10 ^ dpSearch q (fuel + 1) start).den = 1 := by
  intro fuel
  induction fuel with
  | zero =>
      intro start h
      rw [Nat.add_zero] at h
      have hu : dpSearch q (0 + 1) start
          = if (q * 10 ^ start).den = 1 then start else dpSearch q 0 (start + 1) := rfl
      rw [hu, if_pos h]
      exact h
  | succ f ih =>
      intro start h
      have hu : dpSearch q (f + 1 + 1) start
          = if (q * 10 ^ start).den = 1 then start else dpSearch q (f + 1) (start + 1) := rfl
      rw [hu]
      by_cases hs : (q * 10 ^ start).den = 1
      · rw [if_pos hs]; exact hs
      · rw [if_neg hs]
        exact ih (start + 1) (by rw [show start + 1 + f = start + (f + 1) by omega]; exact h)

theorem getDecimalPlaces_den_one {q : ℚ} (h : isFiniteDecimal q) :
    (q * 10 ^ getDecimalPlaces q).den = 1 :=
  dpSearch_den_one q q.den 0 (by simpa using h)

theorem exists_int_mul_pow {q : ℚ} (h : isFiniteDecimal q) {n : ℕ}
    (hn : getDecimalPlaces q ≤ n) : ∃ m : ℤ, q * 10 ^ n = (m : ℚ) := by
  have hden := getDecimalPlaces_den_one h
  refine ⟨(q * 10 ^ getDecimalPlaces q).num * 10 ^ (n - getDecimalPlaces q), ?_⟩
  have hint : ((q * 10 ^ getDecimalPlaces q).num : ℚ) = q * 10 ^ getDecimalPlaces q :=
    Rat.den_eq_one_iff _ |>.mp hden
  have hsplit : (10 : ℚ) ^ n = 10 ^ getDecimalPlaces q * 10 ^ (n - getDecimalPlaces q) := by
    rw [← pow_add]
    congr 1
    omega
  rw [hsplit, ← mul_assoc]
  push_cast
  rw [hint]

theorem jsRound_intCast (m : ℤ) : jsRound ((m : ℤ) : ℚ) = m := by
  unfold jsRound
  rw [add_comm, Int.floor_add_int]
  norm_num

theorem preciseAdd_eq_add {a b : ℚ} (ha : isFiniteDecimal a) (hb : isFiniteDecimal b) :
    preciseAdd a b = a + b := by
  obtain ⟨ma, hma⟩ :=
    exists_int_mul_pow ha (le_max_left (getDecimalPlaces a) (getDecimalPlaces b))
  obtain ⟨mb, hmb⟩ :=
    exists_int_mul_pow hb (le_max_right (getDecimalPlaces a) (getDecimalPlaces b))
  have hpow : (10 : ℚ) ^ max (getDecimalPlaces a) (getDecimalPlaces b) ≠ 0 := by positivity
  simp only [preciseAdd]
  rw [hma, hmb, show ((ma : ℚ) + (mb : ℚ)) = ((ma + mb : ℤ) : ℚ) by push_cast; ring,
    jsRound_intCast]
  push_cast
  rw [← hma, ← hmb]
  field_simp
  ring

theorem preciseSubtract_eq_sub {a b : ℚ} (ha : isFiniteDecimal a) (hb : isFiniteDecimal b) :
    preciseSubtract a b = a - b := by
  obtain ⟨ma, hma⟩ :=
    exists_int_mul_pow ha (le_max_left (getDecimalPlaces a) (getDecimalPlaces b))
  obtain ⟨mb, hmb⟩ :=
    exists_int_mul_pow hb (le_max_right (getDecimalPlaces a) (getDecimalPlaces b))
  have hpow : (10 : ℚ) ^ max (getDecimalPlaces a) (getDecimalPlaces b) ≠ 0 := by positivity
  simp only [preciseSubtract]
  rw [hma, hmb, show ((ma : ℚ) - (mb : ℚ)) = ((ma - mb : ℤ) : ℚ) by push_cast; ring,
    jsRound_intCast]
  push_cast
  rw [← hma, ← hmb]
  field_simp
  ring

theorem preciseMultiply_eq_mul {a b : ℚ} (ha : isFiniteDecimal a) (hb : isFiniteDecimal b) :
    preciseMultiply a b = a * b := by
  obtain ⟨ma, hma⟩ := exists_int_mul_pow ha (le_refl (getDecimalPlaces a))
  obtain ⟨mb, hmb⟩ := exists_int_mul_pow hb (le_refl (getDecimalPlaces b))
  have hpow : (10 : ℚ) ^ (getDecimalPlaces a + getDecimalPlaces b) ≠ 0 := by positivity
  simp only [preciseMultiply]
  have hre : a * 10 ^ (getDecimalPlaces a + getDecimalPlaces b) * b
      = (a * 10 ^ getDecimalPlaces a) * (b * 10 ^ getDecimalPlaces b) := by
    rw [pow_add]; ring
  rw [hre, hma, hmb, show ((ma : ℚ) * (mb : ℚ)) = ((ma * mb : ℤ) : ℚ) by push_cast; ring,
    jsRound_intCast]
  push_cast
  rw [← hma, ← hmb]
  field_simp
  ring

theorem step_docTransform (v : ℚ) (op : Op) :
    Calculator.step ⟨v⟩ op
      = Except.map (fun w => (⟨w⟩ : Calculator)) (docTransform v op) := by
  cases op with
  | divide n p =>
      simp only [Calculator.step, Calculator.divide, docTransform]
      cases preciseDivide v n p <;> rfl
  | sqrt =>
      simp only [Calculator.step, Calculator.sqrt, docTransform]
      by_cases h : v < 0 <;> simp [h, Except.map]
  | _ => rfl

theorem runChain_docRun (ops : List Op) :
    ∀ (v : ℚ) (c : Calculator), Calculator.runChain ⟨v⟩ ops = .ok c →
      docRun v ops = .ok c.value := by
  induction ops with
  | nil =>
      intro v c h
      rw [Calculator.runChain] at h
      cases h
      rfl
  | cons op ops ih =>
      intro v c h
      rw [Calculator.runChain] at h
      have hstep := step_docTransform v op
      cases hdt : docTransform v op with
      | error e =>
          rw [hdt] at hstep
          rw [hstep] at h
          simp [Except.map] at h
      | ok v2 =>
          rw [hdt] at hstep
          rw [hstep] at h
          simp only [Except.map] at h
          rw [docRun, hdt]
          exact ih v2 c h

/-! ### Claim theorems -/

/-- Claim C1: `preciseAdd(0.1, 0.2)` returns exactly `0.3` (and not the
naive floating sum `0.30000000000000004`), and `preciseMultiply(0.1, 0.2)`
returns exactly `0.02`. -/
theorem claim1_precise_literals :
    preciseAdd (0.1 : ℚ) 0.2 = 0.3
    ∧ preciseAdd (0.1 : ℚ) 0.2 ≠ 0.30000000000000004
    ∧ preciseMultiply (0.1 : ℚ) 0.2 = 0.02 := by
  have h : preciseAdd (0.1 : ℚ) 0.2 = 0.3 := by with_unfolding_all rfl
  refine ⟨h, ?_, by with_unfolding_all rfl⟩
  rw [h]
  norm_num

/-- Claim C2: on every pair of operands of the engine's decimal data model,
`preciseAdd` and `preciseSubtract` agree with rounding each scaled operand
separately — `(round(a·f) ± round(b·f)) / f` with `f = 10^max(da, db)` —
because each scaled operand is already an integer. -/
theorem claim2_scaled_operand_rounding (a b : ℚ)
    (ha : isFiniteDecimal a) (hb : isFiniteDecimal b) :
    preciseAdd a b
      = ((jsRound (a * 10 ^ max (getDecimalPlaces a) (getDecimalPlaces b))
          + jsRound (b * 10 ^ max (getDecimalPlaces a) (getDecimalPlaces b)) : ℤ) : ℚ)
        / 10 ^ max (getDecimalPlaces a) (getDecimalPlaces b)
    ∧ preciseSubtract a b
      = ((jsRound (a * 10 ^ max (getDecimalPlaces a) (getDecimalPlaces b))
          - jsRound (b * 10 ^ max (getDecimalPlaces a) (getDecimalPlaces b)) : ℤ) : ℚ)
        / 10 ^ max (getDecimalPlaces a) (getDecimalPlaces b) := by
  obtain ⟨ma, hma⟩ :=
    exists_int_mul_pow ha (le_max_left (getDecimalPlaces a) (getDecimalPlaces b))
  obtain ⟨mb, hmb⟩ :=
    exists_int_mul_pow hb (le_max_right (getDecimalPlaces a) (getDecimalPlaces b))
  have hpow : (10 : ℚ) ^ max (getDecimalPlaces a) (getDecimalPlaces b) ≠ 0 := by positivity
  constructor
  · rw [preciseAdd_eq_add ha hb, hma, hmb, jsRound_intCast, jsRound_intCast]
    push_cast
    rw [← hma, ← hmb]
    field_simp
    ring
  · rw [preciseSubtract_eq_sub ha hb, hma, hmb, jsRound_intCast, jsRound_intCast]
    push_cast
    rw [← hma, ← hmb]
    field_simp
    ring

/-- Witness for C2 at `a = 0.1`, `b = 0.25`. -/
theorem claim2_witness :
    isFiniteDecimal (0.1 : ℚ) ∧ isFiniteDecimal (0.25 : ℚ)
    ∧ (preciseAdd (0.1 : ℚ) 0.25
        = ((jsRound ((0.1 : ℚ) * 10 ^ max (getDecimalPlaces (0.1 : ℚ)) (getDecimalPlaces (0.25 : ℚ)))
            + jsRound ((0.25 : ℚ) * 10 ^ max (getDecimalPlaces (0.1 : ℚ)) (getDecimalPlaces (0.25 : ℚ))) : ℤ) : ℚ)
          / 10 ^ max (getDecimalPlaces (0.1 : ℚ)) (getDecimalPlaces (0.25 : ℚ))
      ∧ preciseSubtract (0.1 : ℚ) 0.25
        = ((jsRound ((0.1 : ℚ) * 10 ^ max (getDecimalPlaces (0.1 : ℚ)) (getDecimalPlaces (0.25 : ℚ)))
            - jsRound ((0.25 : ℚ) * 10 ^ max (getDecimalPlaces (0.1 : ℚ)) (getDecimalPlaces (0.25 : ℚ))) : ℤ) : ℚ)
          / 10 ^ max (getDecimalPlaces (0.1 : ℚ)) (getDecimalPlaces (0.25 : ℚ))) := by
  have h1 : isFiniteDecimal (0.1 : ℚ) := by with_unfolding_all rfl
  have h2 : isFiniteDecimal (0.25 : ℚ) := by with_unfolding_all rfl
  exact ⟨h1, h2, claim2_scaled_operand_rounding 0.1 0.25 h1 h2⟩

/-- Claim C3: `preciseDivide(a, b, precision)` fails, with the
DivisionByZero error and no other, exactly when `b = 0`; for every nonzero
`b` it returns a value. -/
theorem claim3_divide_by_zero (a b : ℚ) (p : ℕ) :
    (∀ e, preciseDivide a b p = .error e ↔ (b = 0 ∧ e = CalcError.divisionByZero))
    ∧ (b ≠ 0 → ∃ v, preciseDivide a b p = .ok v) := by
  unfold preciseDivide
  constructor
  · intro e
    by_cases h : b = 0 <;> simp [h, eq_comm]
  · intro h
    simp [h]

/-- Witness for C3 at `a = 1` with divisors `0` and `2`. -/
theorem claim3_witness :
    preciseDivide 1 0 7 = .error CalcError.divisionByZero
    ∧ ∃ v, preciseDivide 1 2 7 = .ok v :=
  ⟨((claim3_divide_by_zero 1 0 7).1 CalcError.divisionByZero).mpr ⟨rfl, rfl⟩,
    (claim3_divide_by_zero 1 2 7).2 (by norm_num)⟩

/-- Claim C4: a fluent chain that does not fail computes, instance by
instance, exactly the left-to-right application of each operation's
documented numeric transform to the accumulator, as read by `result()`
(in-place mutation with `return this` is embedded as state passing, so
"returns the same instance" is the threading of the updated instance). -/
theorem claim4_chain_semantics (init : ℚ) (ops : List Op) (c : Calculator)
    (h : Calculator.runChain ⟨init⟩ ops = .ok c) :
    docRun init ops = .ok (Calculator.result c) :=
  runChain_docRun ops init c h

/-- Witness for C4 on the chain `Calculator(10).add(5).multiply(2)`. -/
theorem claim4_witness :
    Calculator.runChain ⟨10⟩ [Op.add 5, Op.multiply 2] = Except.ok ⟨30⟩
    ∧ docRun 10 [Op.add 5, Op.multiply 2] = Except.ok (Calculator.result ⟨30⟩) := by
  have h : Calculator.runChain ⟨10⟩ [Op.add 5, Op.multiply 2] = Except.ok ⟨30⟩ := by
    with_unfolding_all rfl
  exact ⟨h, claim4_chain_semantics 10 [Op.add 5, Op.multiply 2] ⟨30⟩ h⟩

/-- Counterexample to C5 as stated: the chain
`Calculator(10).add(5).multiply(2).subtract(7).divide(3)` yields
`7.6666666667` at default precision 10, not the claimed `3.6666666667`. -/
theorem claim5_counterexample :
    Calculator.runChain ⟨10⟩ [Op.add 5, Op.multiply 2, Op.subtract 7, Op.divide 3 10]
      = Except.ok ⟨7.6666666667⟩
    ∧ (7.6666666667 : ℚ) ≠ 3.6666666667 := by
  constructor
  · with_unfolding_all rfl
  · norm_num

/-- Claim C5 as amended: the chain
`Calculator(10).add(5).multiply(2).subtract(7).divide(3)` yields
`7.6666666667` at the default division precision of 10, while reordering
`divide(3)` before `multiply(2)` yields `3`, a different result. -/
theorem claim5_chain_order :
    Calculator.runChain ⟨10⟩ [Op.add 5, Op.multiply 2, Op.subtract 7, Op.divide 3 10]
      = Except.ok ⟨7.6666666667⟩
    ∧ Calculator.runChain ⟨10⟩ [Op.add 5, Op.divide 3 10, Op.multiply 2, Op.subtract 7]
      = Except.ok ⟨3⟩
    ∧ (7.6666666667 : ℚ) ≠ 3 := by
  refine ⟨by with_unfolding_all rfl, by with_unfolding_all rfl, by norm_num⟩

/-- Claim C6: `sqrt()` throws NegativeOperand exactly when the accumulator
is negative, and any failing chained call (the throw happens before the
mutation) leaves the instance — hence a subsequent `result()` — unchanged
for a caller that catches the error. -/
theorem claim6_sqrt_guard_and_no_partial_state (c : Calculator) :
    (Calculator.sqrt c = .error CalcError.negativeOperand ↔ c.value < 0)
    ∧ ((∃ e, Calculator.sqrt c = .error e) ↔ c.value < 0)
    ∧ (∀ op e, Calculator.step c op = .error e →
        Calculator.attempt c op = c ∧ (Calculator.attempt c op).result = c.result) := by
  refine ⟨?_, ?_, ?_⟩
  · unfold Calculator.sqrt
    by_cases h : c.value < 0 <;> simp [h]
  · unfold Calculator.sqrt
    by_cases h : c.value < 0 <;> simp [h]
  · intro op e h
    have : Calculator.attempt c op = c := by
      unfold Calculator.attempt
      rw [h]
    exact ⟨this, by rw [this]⟩

/-- Witness for C6 at accumulator `-4` and the failing `sqrt` call. -/
theorem claim6_witness :
    Calculator.sqrt ⟨-4⟩ = .error CalcError.negativeOperand
    ∧ Calculator.attempt ⟨-4⟩ Op.sqrt = ⟨-4⟩ := by
  have h := claim6_sqrt_guard_and_no_partial_state ⟨-4⟩
  have herr : Calculator.sqrt ⟨-4⟩ = .error CalcError.negativeOperand :=
    h.1.mpr (by norm_num)
  exact ⟨herr, (h.2.2 Op.sqrt CalcError.negativeOperand herr).1⟩

/-- Claim C7: `preciseCalculate` routes each of the four operator symbols to
the corresponding precise operation, the precision argument only affects the
division branch, and every other operator symbol raises the
UnsupportedOperator error. -/
theorem claim7_dispatch (a b : ℚ) (p : ℕ) :
    preciseCalculate a "+" b p = .ok (preciseAdd a b)
    ∧ preciseCalculate a "-" b p = .ok (preciseSubtract a b)
    ∧ preciseCalculate a "*" b p = .ok (preciseMultiply a b)
    ∧ preciseCalculate a "/" b p = preciseDivide a b p
    ∧ (∀ op : String, op ≠ "/" → ∀ p2 : ℕ, preciseCalculate a op b p = preciseCalculate a op b p2)
    ∧ (∀ op : String, op ∉ (["+", "-", "*", "/"] : List String) →
        preciseCalculate a op b p = .error CalcError.unsupportedOperator) := by
  refine ⟨rfl, rfl, rfl, rfl, ?_, ?_⟩
  · intro op hop p2
    unfold preciseCalculate
    split <;> simp_all
  · intro op hop
    unfold preciseCalculate
    split <;> simp_all

/-- Witness for C7 at the unsupported operator `%` and at precision change
on `+`. -/
theorem claim7_witness :
    preciseCalculate 1 "%" 2 10 = .error CalcError.unsupportedOperator
    ∧ preciseCalculate 1 "+" 2 10 = preciseCalculate 1 "+" 2 3 := by
  have h := claim7_dispatch 1 2 10
  exact ⟨h.2.2.2.2.2 "%" (by simp), h.2.2.2.2.1 "+" (by simp) 3⟩

/-- Claim C8: the three documented `formatNumber` renderings. -/
theorem claim8_format_examples :
    formatNumber (3.1 : ℚ) 2 true = "3.1"
    ∧ formatNumber (3 : ℚ) 2 true = "3"
    ∧ formatNumber (3.14159 : ℚ) 4 false = "3.1416" := by
  refine ⟨?_, ?_, ?_⟩ <;> with_unfolding_all rfl

/-- Claim C9: on the engine's decimal data model,
`preciseAdd(a,b) + preciseSubtract(a,b) = 2a` exactly. -/
theorem claim9_add_sub_symmetry (a b : ℚ)
    (ha : isFiniteDecimal a) (hb : isFiniteDecimal b) :
    preciseAdd a b + preciseSubtract a b = 2 * a := by
  rw [preciseAdd_eq_add ha hb, preciseSubtract_eq_sub ha hb]
  ring

/-- Witness for C9 at `a = 1.5`, `b = 1.2`. -/
theorem claim9_witness :
    isFiniteDecimal (1.5 : ℚ) ∧ isFiniteDecimal (1.2 : ℚ)
    ∧ preciseAdd (1.5 : ℚ) 1.2 + preciseSubtract (1.5 : ℚ) 1.2 = 2 * 1.5 := by
  have h1 : isFiniteDecimal (1.5 : ℚ) := by with_unfolding_all rfl
  have h2 : isFiniteDecimal (1.2 : ℚ) := by with_unfolding_all rfl
  exact ⟨h1, h2, claim9_add_sub_symmetry 1.5 1.2 h1 h2⟩

/-- Claim C10: with `removeTrailingZeros` and `decimals = 0` the strip eats
trailing zero digits of the integer part itself: `formatNumber(100, 0, true)`
and `formatNumber(10, 0, true)` both return `"1"`. -/
theorem claim10_integer_zero_strip :
    formatNumber (100 : ℚ) 0 true = "1"
    ∧ formatNumber (10 : ℚ) 0 true = "1"
    ∧ formatNumber (100 : ℚ) 0 true ≠ "100"
    ∧ formatNumber (10 : ℚ) 0 true ≠ "10" := by
  refine ⟨by with_unfolding_all rfl, by with_unfolding_all rfl, ?_, ?_⟩ <;>
    with_unfolding_all decide

end FsUtils
